import Mathlib

/-!
Verification development for the flopy excerpt: the MODFLOW-6 scalar data
model (`flopy/mf6/data/mfdatascalar.py`: `MFScalar`, `MFScalarTransient`)
and the PCGN solver package constructor (`flopy/modflow/mfpcgn.py`).

The Python values handled by these classes are embedded as the inductive
`PyVal`; methods become pure Lean functions, with fallible code returning
`Except String`.  External collaborators (the generic storage engine, the
line tokenizer, the keyword matcher, the transient "prep" steps) are not
part of the two source files and are modelled from the specification; each
such definition carries a doc comment starting `Modelled from the spec:`.
The repository is Python 2 code (`raise TypeError, ...` syntax), so mixed
list/int comparisons follow CPython 2 semantics where noted.
-/

set_option autoImplicit false

namespace Flopy

/-- Embedding of the Python values that flow through `MFScalar`:
scalars (int, str, bool) and the three sequence wrappers the code tests
with `isinstance` (`list`, `tuple`, `np.ndarray`). -/
inductive PyVal where
  | int (n : Int)
  | str (s : String)
  | bool (b : Bool)
  | pylist (xs : List PyVal)
  | pytuple (xs : List PyVal)
  | pyarr (xs : List PyVal)
deriving Repr, Inhabited

/-- Python `isinstance(data, list) or isinstance(data, np.ndarray) or
isinstance(data, tuple)` — the guard of the `while` loop in
`MFScalar.set_data`. -/
def isWrapper : PyVal → Bool
  | .pylist _ => true
  | .pytuple _ => true
  | .pyarr _ => true
  | _ => false

/-- Python `data[0]` for a wrapper value (`none` when `data` is not a sequence). -/
def head0 : PyVal → Option PyVal
  | .pylist xs => xs.head?
  | .pytuple xs => xs.head?
  | .pyarr xs => xs.head?
  | _ => none

/-- The comment contributed by one unwrapped layer in `MFScalar.set_data`:
`if (isinstance(data, list) or isinstance(data, tuple)) and len(data) > 1:
self._add_data_line_comment(data[1:], 0)`.  Note `np.ndarray` is *not*
tested here, only `list` and `tuple`. -/
def layerComment : PyVal → List (List PyVal)
  | .pylist ys => if 1 < ys.length then [ys.drop 1] else []
  | .pytuple ys => if 1 < ys.length then [ys.drop 1] else []
  | _ => []

/-- The Python `IndexError` message raised by `data[0]` on an empty
sequence. -/
def indexErrorMsg : String := "IndexError: index out of range"

/-- The `while` loop of `MFScalar.set_data` (mfdatascalar.py lines 68-71):
repeatedly replace `data` by `data[0]`, and after each step record
`data[1:]` as a line comment when the new `data` is a list/tuple of
length > 1.  Empty wrappers make `data[0]` raise `IndexError`. -/
def setDataLoop : PyVal → Except String (PyVal × List (List PyVal))
  | .pylist [] => .error indexErrorMsg
  | .pytuple [] => .error indexErrorMsg
  | .pyarr [] => .error indexErrorMsg
  | .pylist (x :: _) => (setDataLoop x).map (fun r => (r.1, layerComment x ++ r.2))
  | .pytuple (x :: _) => (setDataLoop x).map (fun r => (r.1, layerComment x ++ r.2))
  | .pyarr (x :: _) => (setDataLoop x).map (fun r => (r.1, layerComment x ++ r.2))
  | .int n => .ok (.int n, [])
  | .str s => .ok (.str s, [])
  | .bool b => .ok (.bool b, [])

/-- Spec-side description: the scalar reached by taking the first element
of each list/array/tuple wrapper layer until a non-sequence remains
(`none` when some layer on that path is empty). -/
def firstScalar : PyVal → Option PyVal
  | .pylist [] => none
  | .pytuple [] => none
  | .pyarr [] => none
  | .pylist (x :: _) => firstScalar x
  | .pytuple (x :: _) => firstScalar x
  | .pyarr (x :: _) => firstScalar x
  | d => some d

/-- Spec-side description: for each unwrapped layer (the result of taking
the first element of a wrapper) that is itself a list or tuple of length
greater than 1, its elements from index 1 onward, in unwrapping order. -/
def trailComments : PyVal → List (List PyVal)
  | .pylist (x :: _) => layerComment x ++ trailComments x
  | .pytuple (x :: _) => layerComment x ++ trailComments x
  | .pyarr (x :: _) => layerComment x ++ trailComments x
  | _ => []

/-- Spec-side predicate: every wrapper layer along the first-element
unwrapping path is non-empty. -/
def spineOk : PyVal → Bool
  | .pylist [] => false
  | .pytuple [] => false
  | .pyarr [] => false
  | .pylist (x :: _) => spineOk x
  | .pytuple (x :: _) => spineOk x
  | .pyarr (x :: _) => spineOk x
  | _ => true

/-- Wrapper-nesting depth along the first-element path; each iteration of
the `set_data` loop strictly reduces it. -/
def wdepth : PyVal → Nat
  | .pylist [] => 1
  | .pytuple [] => 1
  | .pyarr [] => 1
  | .pylist (x :: _) => wdepth x + 1
  | .pytuple (x :: _) => wdepth x + 1
  | .pyarr (x :: _) => wdepth x + 1
  | _ => 0

/-- ASCII uppercasing of one character, as Python `str.upper()` does on the
ASCII identifiers appearing in schemas. -/
def upChar (c : Char) : Char :=
  if 'a' ≤ c ∧ c ≤ 'z' then Char.ofNat (c.toNat - 32) else c

/-- ASCII lowercasing of one character (Python `str.lower()`). -/
def lowChar (c : Char) : Char :=
  if 'A' ≤ c ∧ c ≤ 'Z' then Char.ofNat (c.toNat + 32) else c

/-- Python `s.upper()` restricted to ASCII. -/
def strUpper (s : String) : String := String.mk (s.data.map upChar)

/-- Python `s.lower()` restricted to ASCII. -/
def strLower (s : String) : String := String.mk (s.data.map lowChar)

/-- Python `sep.join(parts)`. -/
def strJoin (sep : String) : List String → String
  | [] => ""
  | [x] => x
  | x :: y :: rest => x ++ sep ++ strJoin sep (y :: rest)

/-- One sub-item descriptor of a schema node (external, read-only): a type
tag string, an `optional` flag and an uppercase-rendering flag. -/
structure DataItemStructure where
  name : String
  dtype : String
  optional : Bool
  ucase : Bool
deriving DecidableEq, Repr, Inhabited

/-- The overall datatype of a schema node, `mfstructure.DataType`
(restricted to the scalar kinds this file dispatches on). -/
inductive DataType where
  | scalar
  | scalar_transient
  | scalar_keyword
  | scalar_keyword_transient
deriving DecidableEq, Repr, Inhabited

/-- A schema node (`MFDataStructure`, external, read-only): name, the type
tag string `structure.type`, the ordered sub-item descriptors, the datum
type string returned by `get_datum_type()` and the `DataType` returned by
`get_datatype()`. -/
structure MFDataStructure where
  name : String
  stype : String
  data_item_structures : List DataItemStructure
  datum_type : String
  datatype : DataType
deriving DecidableEq, Repr, Inhabited

/-- Modelled from the spec: the generic storage container
(`mfdata.DataStorage`, not in the excerpt) holds at most one converted
value; absence of data is a distinct state from any stored value. -/
structure DataStorage where
  value : Option PyVal
deriving Repr, Inhabited

/-- The empty storage produced by `MFScalar._new_storage()`. -/
def emptyStorage : DataStorage := ⟨none⟩

/-- Decimal digit accumulator for `pyIntOfStr`. -/
def digitsToNat : List Char → Nat → Option Nat
  | [], acc => some acc
  | c :: rest, acc =>
    if c.isDigit then digitsToNat rest (acc * 10 + (c.toNat - 48)) else none

/-- Python `int(s)` on a plain decimal literal with optional sign. -/
def pyIntOfStr (s : String) : Option Int :=
  match s.data with
  | [] => none
  | c :: rest =>
    if c = '-' then
      if rest.isEmpty then none else (digitsToNat rest 0).map (fun n => -(n : Int))
    else (digitsToNat (c :: rest) 0).map (fun n => (n : Int))

/-- Modelled from the spec: the storage engine's
`convert(raw, declared_type, sub_item_descriptor) → typed_value`, failing
with a type/parse error on invalid input.  The descriptor argument does
not influence the modelled conversion and is omitted. -/
def convert_data (raw : PyVal) (dtype : String) : Except String PyVal :=
  if dtype = "integer" ∨ dtype = "int" then
    match raw with
    | .int n => .ok (.int n)
    | .bool b => .ok (.int (if b then 1 else 0))
    | .str s =>
      match pyIntOfStr s with
      | some n => .ok (.int n)
      | none => .error ("type error converting " ++ s ++ " to " ++ dtype)
    | _ => .error ("type error converting value to " ++ dtype)
  else if dtype = "string" ∨ dtype = "keyword" then
    match raw with
    | .str s => .ok (.str s)
    | .int n => .ok (.str (toString n))
    | .bool b => .ok (.bool b)
    | _ => .error ("type error converting value to " ++ dtype)
  else .error ("unsupported declared type " ++ dtype)

/-- Modelled from the spec: the storage engine's
`to_string(value, declared_type, force_uppercase) → text` formatter for
the scalar values this excerpt stores (wrapper values render as their
Python `str`, modelled here as the empty text). -/
def to_string (v : PyVal) (_dtype : String) (fup : Bool) : String :=
  match v with
  | .int n => toString n
  | .bool b => if b then (if fup then "TRUE" else "True") else (if fup then "FALSE" else "False")
  | .str s => if fup then strUpper s else s
  | _ => ""

/-- Python `value + 1` on a stored value (`int` and `bool` support it;
anything else raises `TypeError`). -/
def py_add_one : PyVal → Except String PyVal
  | .int n => .ok (.int (n + 1))
  | .bool b => .ok (.int ((if b then (1 : Int) else 0) + 1))
  | _ => .error "TypeError: unsupported operand type for +"

/-- Python `len(value)` (`TypeError` on values without a length). -/
def pyLen : PyVal → Except String Nat
  | .str s => .ok s.length
  | .pylist xs => .ok xs.length
  | .pytuple xs => .ok xs.length
  | .pyarr xs => .ok xs.length
  | _ => .error "TypeError: object has no length"

/-- Accumulating whitespace tokenizer over the character list (the
accumulator holds the current token reversed). -/
def splitTokens : List Char → List Char → List String
  | [], acc => if acc.isEmpty then [] else [String.mk acc.reverse]
  | c :: rest, acc =>
    if c.isWhitespace then
      (if acc.isEmpty then [] else [String.mk acc.reverse]) ++ splitTokens rest []
    else splitTokens rest (c :: acc)

/-- Modelled from the spec: the line tokenizer
(`ArrayUtil.split_data_line`, not in the excerpt) splits a raw text line
into whitespace-delimited tokens. -/
def split_data_line (line : String) : List String := splitTokens line.data []

/-- Modelled from the spec: the keyword matcher (`MFData._load_keyword`,
not in the excerpt) validates the mandatory leading keyword token against
the field's name and returns the index of the next token. -/
def load_keyword (kname : String) (tokens : List String) : Except String Nat :=
  match tokens with
  | [] => .error ("keyword " ++ kname ++ " not found")
  | tk :: _ =>
    if strUpper tk = strUpper kname then .ok 1
    else .error ("keyword " ++ kname ++ " not found")

/-- Modelled from the spec: `MFData._read_pre_data_comments` consumes
leading comment lines; with the data on the first supplied line it returns
that line unchanged. -/
def read_pre_data_comments (first_line : String) : String := first_line

/-- The `MFFileParseException` message built by `MFScalar.add_one` for a
non-integer field: `'{} of type {} does not support add one operation.'`. -/
def addOneErrMsg (dname dtype : String) : String :=
  dname ++ " of type " ++ dtype ++ " does not support add one operation."

/-- The `MFFileParseException` message built by `MFScalar.load` when the
data token after the keyword is missing. -/
def missing_data_msg (dname label line : String) : String :=
  "Error reading variable \"" ++ dname ++ "\".  Expected data after label \"" ++
    label ++ "\" not found at line \"" ++ line ++ "\"."

/-- State of an `MFScalar` instance: the schema node, the simulation's
indent string, `self._data_name`, the declared type cached by `__init__`
(`data_item_structures[0].type`), the single-value storage and the
accumulated line comments (the comment sink is modelled as a list of the
token lists handed to `_add_data_line_comment`). -/
structure MFScalar where
  struct : MFDataStructure
  indent_string : String
  data_name : String
  data_type : String
  data_storage : DataStorage
  comments : List (List PyVal)
deriving Repr, Inhabited

/-- Source `MFScalar.__init__` before any data is supplied: caches
`data_item_structures[0].type` and creates empty storage. -/
def MFScalar.mkNew (str : MFDataStructure) (indent dname : String) : MFScalar :=
  { struct := str
    indent_string := indent
    data_name := dname
    data_type := (str.data_item_structures.headD default).dtype
    data_storage := emptyStorage
    comments := [] }

/-- Source `MFScalar.has_data`: delegates to the storage object. -/
def MFScalar.has_data (s : MFScalar) : Bool := s.data_storage.value.isSome

/-- Source `MFScalar.get_data` (the multiplier is irrelevant for the scalar
values modelled here). -/
def MFScalar.get_data (s : MFScalar) : Option PyVal := s.data_storage.value

/-- Source `MFScalar.set_data`: run the unwrapping loop (recording trailing
comments), convert the resulting scalar to the declared type and store
it. -/
def MFScalar.set_data (s : MFScalar) (data : PyVal) : Except String MFScalar :=
  match setDataLoop data with
  | .error e => .error e
  | .ok (v, cs) =>
    match convert_data v s.data_type with
    | .error e => .error e
    | .ok w => .ok { s with data_storage := ⟨some w⟩, comments := s.comments ++ cs }

/-- Source `MFScalar.__init__`: optional initial data is routed through
`set_data`. -/
def MFScalar.init (str : MFDataStructure) (indent dname : String) (data : Option PyVal) :
    Except String MFScalar :=
  match data with
  | none => .ok (MFScalar.mkNew str indent dname)
  | some d => (MFScalar.mkNew str indent dname).set_data d

/-- Source `MFScalar.add_one`: on an integer-typed field increment the stored
value (initialising to 1 when absent), otherwise raise
`MFFileParseException` with a message naming the field and its type. -/
def MFScalar.add_one (s : MFScalar) : Except String MFScalar :=
  if s.struct.datum_type = "int" ∨ s.struct.datum_type = "integer" then
    match s.data_storage.value with
    | none => .ok { s with data_storage := ⟨some (.int 1)⟩ }
    | some v =>
      match py_add_one v with
      | .error e => .error e
      | .ok w => .ok { s with data_storage := ⟨some w⟩ }
  else .error (addOneErrMsg s.data_name s.struct.datum_type)

/-- The loop body of the `record` branch of `MFScalar.get_file_entry`:
mandatory keyword sub-items contribute their uppercased name, other
sub-items contribute the stringified stored value when `len(data) > 0`. -/
def recordParts (v : PyVal) (dtype : String) : List DataItemStructure → Except String (List String)
  | [] => .ok []
  | di :: rest =>
    if strLower di.dtype = "keyword" ∧ di.optional = false then
      (recordParts v dtype rest).map (fun ps => strUpper di.name :: ps)
    else
      match pyLen v with
      | .error e => .error e
      | .ok n =>
        if 0 < n then (recordParts v dtype rest).map (fun ps => to_string v dtype di.ucase :: ps)
        else recordParts v dtype rest

/-- Core of `MFScalar.get_file_entry`, parametrised by the storage object
the dynamic `_get_storage_obj` call returns (for a transient instance it
may be absent, yielding the empty entry): branches on the schema type tag
(`keyword` / `record` / plain scalar), with `one_based` asserting an
integer type tag and displaying the stored value plus one, and
`values_only` dropping the leading field name (and, in the source, the
trailing newline). -/
def gfe_core (str : MFDataStructure) (indent dtype : String) (sto : Option DataStorage)
    (values_only one_based : Bool) : Except String String :=
  match sto with
  | none => .ok ""
  | some st =>
    match st.value with
    | none => .ok ""
    | some v =>
      if str.stype = "keyword" then .ok (indent ++ strUpper str.name ++ "\n")
      else if str.stype = "record" then
        match recordParts v dtype str.data_item_structures with
        | .error e => .error e
        | .ok parts => .ok (indent ++ strJoin indent parts ++ "\n")
      else
        let fup := (str.data_item_structures.headD default).ucase
        let dres : Except String PyVal :=
          if one_based then
            if str.stype = "integer" ∨ str.stype = "int" then py_add_one v
            else .error "AssertionError: one_based on a non-integer type"
          else .ok v
        match dres with
        | .error e => .error e
        | .ok d =>
          if values_only then .ok (indent ++ to_string d dtype fup)
          else .ok (indent ++ strUpper str.name ++ indent ++ to_string d dtype fup ++ "\n")

/-- Source `MFScalar.get_file_entry`: the method reads but never mutates the
instance, so the embedded state transition is the identity. -/
def MFScalar.get_file_entry (s : MFScalar) (values_only one_based : Bool) :
    Except String (String × MFScalar) :=
  (gfe_core s.struct s.indent_string s.data_type (some s.data_storage) values_only one_based).map
    (fun out => (out, s))

/-- The index scan of the `record` branch of `MFScalar.load`: advance
while tokens remain beyond the next index, the sub-item type is `keyword`,
and (past the first position) the sub-item is not optional. -/
def recordScan (nTokens : Nat) (items : List DataItemStructure) : List String → Nat → Nat
  | [], index => index
  | ty :: tys, index =>
    if nTokens ≤ index + 1 ∨ ty ≠ "keyword" ∨ (0 < index ∧ (items.getD index default).optional = true) then
      index
    else recordScan nTokens items tys (index + 1)

/-- The storing step of `MFScalar.load`, returning the updated cell and
the final token index: `record` schemas scan for the first data-bearing
token and convert it with that sub-item's type (without advancing the
index); keyword-only datatypes store `True` with no further token
required; any other scalar requires a token after the keyword (else
`MFFileParseException` naming the field, the expected label and the
line) and converts it, advancing the index by one. -/
def MFScalar.loadStore (s : MFScalar) (arr_line : List String) (current_line : String)
    (index_num : Nat) : Except String (MFScalar × Nat) :=
  if s.struct.stype = "record" then
    let index := recordScan arr_line.length s.struct.data_item_structures
      (s.struct.data_item_structures.map (fun di => di.dtype)) 0
    match arr_line[index]? with
    | none => .error indexErrorMsg
    | some tok =>
      match s.struct.data_item_structures[index]? with
      | none => .error indexErrorMsg
      | some di =>
        match convert_data (.str tok) di.dtype with
        | .error e => .error e
        | .ok w => .ok ({ s with data_storage := ⟨some w⟩ }, index_num)
  else if s.struct.datatype = .scalar_keyword ∨ s.struct.datatype = .scalar_keyword_transient then
    .ok ({ s with data_storage := ⟨some (.bool true)⟩ }, index_num)
  else
    if arr_line.length < 1 + index_num then
      .error (missing_data_msg s.data_name
        (strLower (s.struct.data_item_structures.headD default).name) current_line)
    else
      match convert_data (.str (arr_line.getD index_num "")) s.data_type with
      | .error e => .error e
      | .ok w => .ok ({ s with data_storage := ⟨some w⟩ }, index_num + 1)

/-- The final step of `MFScalar.load`: tokens past the final index are
recorded as a line comment, and the method returns `[False, None]`. -/
def loadFinish (arr_line : List String) (p : MFScalar × Nat) :
    MFScalar × Bool × Option String :=
  (if p.2 < arr_line.length then
      { p.1 with comments := p.1.comments ++ [(arr_line.drop p.2).map PyVal.str] }
    else p.1,
    false, none)

/-- Source `MFScalar.load`: tokenize the (comment-stripped) line, match the
leading keyword, store per the schema kind, then record any trailing
tokens as a comment. -/
def MFScalar.load (s : MFScalar) (first_line : String) :
    Except String (MFScalar × Bool × Option String) :=
  let current_line := read_pre_data_comments first_line
  let arr_line := split_data_line current_line
  match load_keyword s.struct.name arr_line with
  | .error e => .error e
  | .ok index_num => (s.loadStore arr_line current_line index_num).map (loadFinish arr_line)

/-- Lookup in the insertion-ordered key → storage mapping
(`OrderedDict.__getitem__` on the first matching key). -/
def assocFind : List (Nat × DataStorage) → Nat → Option DataStorage
  | [], _ => none
  | (k, st) :: rest, key => if k = key then some st else assocFind rest key

/-- Python `OrderedDict.__setitem__`: replace the value of an existing key in
place (keeping its position) or append a new key at the end. -/
def assocSet : List (Nat × DataStorage) → Nat → DataStorage → List (Nat × DataStorage)
  | [], key, st => [(key, st)]
  | (k, s0) :: rest, key, st =>
    if k = key then (key, st) :: rest else (k, s0) :: assocSet rest key st

/-- Python `OrderedDict.keys()`: the keys in insertion order. -/
def keysOf (l : List (Nat × DataStorage)) : List Nat := l.map Prod.fst

/-- State of an `MFScalarTransient` instance: the scalar configuration
plus the insertion-ordered key → storage mapping that replaces the single
storage slot, and the ambient active key `self._current_key` set by the
external prep steps. -/
structure MFScalarTransient where
  struct : MFDataStructure
  indent_string : String
  data_name : String
  data_type : String
  storages : List (Nat × DataStorage)
  comments : List (List PyVal)
  current_key : Option Nat
deriving Repr, Inhabited

/-- Source `MFScalarTransient.__init__`: empty ordered mapping, no active key. -/
def MFScalarTransient.mkNew (str : MFDataStructure) (indent dname : String) : MFScalarTransient :=
  { struct := str
    indent_string := indent
    data_name := dname
    data_type := (str.data_item_structures.headD default).dtype
    storages := []
    comments := []
    current_key := none }

/-- The scalar view of a transient instance at one storage cell: dynamic
dispatch makes the inherited `MFScalar` methods operate on the storage
`_get_storage_obj` returns for the active key. -/
def MFScalarTransient.viewScalar (t : MFScalarTransient) (st : DataStorage) : MFScalar :=
  { struct := t.struct
    indent_string := t.indent_string
    data_name := t.data_name
    data_type := t.data_type
    data_storage := st
    comments := t.comments }

/-- Write back the storage cell and comments a scalar-level operation
produced for key `k`. -/
def MFScalarTransient.absorb (t : MFScalarTransient) (k : Nat) (s : MFScalar) : MFScalarTransient :=
  { t with
    current_key := some k
    storages := assocSet t.storages k s.data_storage
    comments := s.comments }

/-- Source `MFScalarTransient.add_transient_key`: registers the key (the
`MFTransient` super call is modelled from the spec as exactly this
registration) and eagerly binds a fresh empty storage to it, replacing
any cell previously bound to the key. -/
def MFScalarTransient.add_transient_key (t : MFScalarTransient) (key : Nat) : MFScalarTransient :=
  { t with storages := assocSet t.storages key emptyStorage }

/-- Modelled from the spec: `_set_data_prep` narrows scope to the given
key, or keeps the currently active key when none is given. -/
def prepKey (current : Option Nat) (key : Option Nat) : Option Nat :=
  match key with
  | some k => some k
  | none => current

/-- The Python `AttributeError` raised when a scalar method dereferences
the `None` returned by `_get_storage_obj` for an unregistered key. -/
def noStorageMsg : String := "AttributeError: NoneType has no storage attribute"

/-- Source `MFScalarTransient.set_data` for a non-dict value: narrow to the key,
then run the inherited `MFScalar.set_data` against that key's cell. -/
def MFScalarTransient.set_data_plain (t : MFScalarTransient) (data : PyVal) (key : Option Nat) :
    Except String MFScalarTransient :=
  match prepKey t.current_key key with
  | none => .error noStorageMsg
  | some k =>
    match assocFind t.storages k with
    | none => .error noStorageMsg
    | some st => ((t.viewScalar st).set_data data).map (t.absorb k)

/-- Source `MFScalarTransient.set_data` for a dict value: one delegated set per
`(stress period, value)` entry, in the mapping's order. -/
def MFScalarTransient.set_data_dict (t : MFScalarTransient) :
    List (Nat × PyVal) → Except String MFScalarTransient
  | [] => .ok t
  | (k, item) :: rest =>
    match t.set_data_plain item (some k) with
    | .error e => .error e
    | .ok t1 => t1.set_data_dict rest

/-- Source `MFScalarTransient.has_data(key)` for an explicit key: `get_data_prep`
sets the active key, then the inherited `has_data` consults that key's
cell. -/
def MFScalarTransient.has_data_key (t : MFScalarTransient) (k : Nat) :
    Except String (Bool × MFScalarTransient) :=
  let t1 := { t with current_key := some k }
  match assocFind t.storages k with
  | none => .error noStorageMsg
  | some st => .ok (st.value.isSome, t1)

/-- Whether the cell bound to key `k` holds data: the inherited
`has_data` evaluated against the storage the dynamic dispatch returns
for `k`. -/
def keyHasData (storages : List (Nat × DataStorage)) (k : Nat) : Bool :=
  match assocFind storages k with
  | some st => st.value.isSome
  | none => false

/-- The scan of `MFScalarTransient.has_data(None)`: walk the registered
keys in order, narrowing to each, and stop at the first cell with data. -/
def hasDataLoop (storages : List (Nat × DataStorage)) :
    List Nat → Option Nat → Bool × Option Nat
  | [], ck => (false, ck)
  | k :: ks, _ =>
    if keyHasData storages k then (true, some k) else hasDataLoop storages ks (some k)

/-- Source `MFScalarTransient.has_data`. -/
def MFScalarTransient.has_data (t : MFScalarTransient) (key : Option Nat) :
    Except String (Bool × MFScalarTransient) :=
  match key with
  | some k => t.has_data_key k
  | none =>
    let r := hasDataLoop t.storages (keysOf t.storages) t.current_key
    .ok (r.1, { t with current_key := r.2 })

/-- CPython 2 cross-type comparison `list > int`: numeric values order
below every non-numeric object, so any list (even the empty one) compares
greater than any int.  This is the `if file_entry > 1` test in
`MFScalarTransient.get_file_entry`. -/
def py2_list_gt_int (_l : List String) (_n : Int) : Bool := true

/-- CPython 2 cross-type comparison `list == int`: always false. -/
def py2_list_eq_int (_l : List String) (_n : Int) : Bool := false

/-- The aggregation loop of `MFScalarTransient.get_file_entry(None)`: for
each registered key in order whose cell has data, narrow to it and append
the inherited scalar rendering; returns the collected entries and the
final ambient key. -/
def gfeLoop (str : MFDataStructure) (indent dtype : String)
    (storages : List (Nat × DataStorage)) :
    List Nat → Option Nat → Except String (List String × Option Nat)
  | [], ck => .ok ([], ck)
  | k :: ks, _ =>
    if keyHasData storages k then
      match gfe_core str indent dtype (assocFind storages k) false false with
      | .error e => .error e
      | .ok entry =>
        (gfeLoop str indent dtype storages ks (some k)).map
          (fun r => (entry :: r.1, r.2))
    else gfeLoop str indent dtype storages ks (some k)

/-- Source `MFScalarTransient.get_file_entry`: with a key, narrow and delegate to
the scalar rendering; with no key, run the aggregation loop and combine
the entries under the Python 2 `file_entry > 1` / `file_entry == 1`
comparisons of the source. -/
def MFScalarTransient.get_file_entry (t : MFScalarTransient) (key : Option Nat) :
    Except String (String × MFScalarTransient) :=
  match key with
  | some k =>
    let t1 := { t with current_key := some k }
    (gfe_core t.struct t.indent_string t.data_type (assocFind t.storages k) false false).map
      (fun out => (out, t1))
  | none =>
    match gfeLoop t.struct t.indent_string t.data_type t.storages (keysOf t.storages) t.current_key with
    | .error e => .error e
    | .ok (es, ck) =>
      let t1 := { t with current_key := ck }
      if py2_list_gt_int es 1 then .ok (strJoin "\n\n" es, t1)
      else if py2_list_eq_int es 1 then .ok (es.headD "", t1)
      else .ok ("", t1)

/-- Source `MFScalarTransient.load`: `_load_prep` (modelled from the spec)
narrows to the key the current load context determined, then the
inherited `MFScalar.load` runs against that key's cell. -/
def MFScalarTransient.load (t : MFScalarTransient) (first_line : String) (key : Nat) :
    Except String (MFScalarTransient × Bool × Option String) :=
  match assocFind t.storages key with
  | none => .error noStorageMsg
  | some st =>
    ((t.viewScalar st).load first_line).map (fun r => (t.absorb key r.1, r.2.1, r.2.2))

/-- The `TypeError` message of the PCGN constructor's `ifill` range check:
`'PCGN: ifill must be 0 or 1 - an ifill value of {0} was specified'`. -/
def pcgnIfillMsg (ifill : Int) : String :=
  "PCGN: ifill must be 0 or 1 - an ifill value of " ++ toString ifill ++ " was specified"

/-- The scalar solver settings `ModflowPcgn.__init__` stores on the
instance before its error check (file-unit bookkeeping for the auxiliary
output files is omitted: it does not touch the parent model). -/
structure ModflowPcgn where
  iter_mo : Int := 50
  iter_mi : Int := 30
  relax_v : Int := 1
  ifill : Int := 0
  unit_pc : Int := 0
  unit_ts : Int := 0
  adamp : Int := 0
  acnvg : Int := 0
  mcnvg : Int := 2
  ipunit : Int := 0
deriving DecidableEq, Repr, Inhabited

/-- Source `ModflowPcgn.__init__`: after storing the settings, raise `TypeError`
naming the offending value whenever `ifill < 0 or ifill > 1`; only when
the check passes is the package appended to the parent model's package
list by `add_package`. -/
def modflowPcgnInit (parent : List String) (p : ModflowPcgn) :
    Except String (ModflowPcgn × List String) :=
  if p.ifill < 0 ∨ 1 < p.ifill then .error (pcgnIfillMsg p.ifill)
  else .ok (p, parent ++ ["PCGN"])

/-- Spec-side description of the transient aggregation result: entries
joined by a blank-line separator when there are two or more, the single
entry bare when there is exactly one, the empty string when there are
none. -/
def claimJoin (es : List String) : String :=
  if 2 ≤ es.length then strJoin "\n\n" es
  else if es.length = 1 then es.headD ""
  else ""

/-- Spec-side description of the transient aggregation loop: iterate the
given keys in order and, for every key whose cell has data, collect that
key's rendered entry (independent of any ambient active-key state). -/
def collectSpec (str : MFDataStructure) (indent dtype : String)
    (storages : List (Nat × DataStorage)) : List Nat → Except String (List String)
  | [] => .ok []
  | k :: ks =>
    if keyHasData storages k then
      match gfe_core str indent dtype (assocFind storages k) false false with
      | .error e => .error e
      | .ok entry => (collectSpec str indent dtype storages ks).map (fun es => entry :: es)
    else collectSpec str indent dtype storages ks

/-- A text fragment free of newline characters. -/
def noNL (s : String) : Prop := ('\n') ∉ s.data

instance (s : String) : Decidable (noNL s) := by unfold noNL; infer_instance

/-- The text ends with a newline character. -/
def endsWithNL (s : String) : Prop := s.data.getLast? = some ('\n')

instance (s : String) : Decidable (endsWithNL s) := by unfold endsWithNL; infer_instance

/-- The text terminates with exactly one newline character. -/
def singleNL (s : String) : Prop :=
  s.data.getLast? = some ('\n') ∧ s.data.dropLast.getLast? ≠ some ('\n')

instance (s : String) : Decidable (singleNL s) := by unfold singleNL; infer_instance

/-- Fixture: sub-item descriptor of an integer field named `nlay`. -/
def intDIS : DataItemStructure := ⟨"nlay", "integer", false, false⟩

/-- Fixture: schema node of a plain integer scalar field. -/
def intStruct : MFDataStructure := ⟨"nlay", "integer", [intDIS], "integer", .scalar⟩

/-- Fixture: schema node of a keyword-only field. -/
def kwStruct : MFDataStructure :=
  ⟨"print_input", "keyword", [⟨"print_input", "keyword", false, false⟩], "keyword", .scalar_keyword⟩

/-- Fixture: schema node of a transient keyword-only field. -/
def kwTStruct : MFDataStructure :=
  ⟨"print_input", "keyword", [⟨"print_input", "keyword", false, false⟩], "keyword",
    .scalar_keyword_transient⟩

/-- Fixture: schema node of a string-typed scalar field. -/
def strStruct : MFDataStructure :=
  ⟨"memory", "string", [⟨"memory", "string", false, false⟩], "string", .scalar⟩

/-- Fixture: a freshly constructed integer cell. -/
def sInt : MFScalar := MFScalar.mkNew intStruct "  " "nlay"

/-- Fixture: the integer cell holding the value 3. -/
def sInt3 : MFScalar := { sInt with data_storage := ⟨some (.int 3)⟩ }

/-- Fixture: the integer cell holding the value 7. -/
def sInt7 : MFScalar := { sInt with data_storage := ⟨some (.int 7)⟩ }

/-- Fixture: a freshly constructed keyword-only cell. -/
def sKw : MFScalar := MFScalar.mkNew kwStruct "  " "print_input"

/-- Fixture: a string-typed cell holding data. -/
def sStr : MFScalar :=
  { MFScalar.mkNew strStruct "  " "memory" with data_storage := ⟨some (.str "abc")⟩ }

/-- Fixture: the state the `[[5, "note"]]` example leaves the fresh
integer cell in. -/
def c2res : MFScalar :=
  { sInt with data_storage := ⟨some (.int 5)⟩, comments := [[.str "note"]] }

/-- Fixture: a transient keyword sequence with keys 0, 1, 2 and data at
keys 0 and 2. -/
def tKw : MFScalarTransient :=
  { MFScalarTransient.mkNew kwTStruct "  " "print_input" with
    storages := [(0, ⟨some (.bool true)⟩), (1, ⟨none⟩), (2, ⟨some (.bool true)⟩)] }

/-- Fixture: `tKw` after an operation narrowed to key 0 that left every
cell's contents unchanged. -/
def tKwSet0 : MFScalarTransient := { tKw with current_key := some 0 }

theorem exceptMap_ok {ε α β : Type} {e : Except ε α} {f : α → β} {y : β}
    (h : e.map f = .ok y) : ∃ x, e = .ok x ∧ y = f x := by
  cases e with
  | error a => simp [Except.map] at h
  | ok x => exact ⟨x, rfl, by simpa [Except.map] using h.symm⟩

theorem mem_of_getLast?_eq {α : Type} {l : List α} {a : α} : l.getLast? = some a → a ∈ l := by
  induction l with
  | nil => intro h; simp at h
  | cons x xs ih =>
    intro h
    cases xs with
    | nil => simp [List.getLast?] at h; simp [h]
    | cons y ys =>
      rw [List.getLast?_cons_cons] at h
      exact List.mem_cons_of_mem _ (ih h)

theorem noNL_append {a b : String} (ha : noNL a) (hb : noNL b) : noNL (a ++ b) := by
  unfold noNL at *
  rw [String.data_append]
  intro h
  rcases List.mem_append.mp h with h1 | h1
  · exact ha h1
  · exact hb h1

theorem singleNL_append_nl {t : String} (ht : noNL t) : singleNL (t ++ "\n") := by
  unfold singleNL
  rw [String.data_append]
  show (t.data ++ ['\n']).getLast? = some ('\n') ∧ _
  constructor
  · exact List.getLast?_concat t.data
  · rw [List.dropLast_concat]
    intro h
    exact ht (mem_of_getLast?_eq h)

theorem not_endsWithNL_of_noNL {t : String} (ht : noNL t) : ¬ endsWithNL t := by
  intro h
  exact ht (mem_of_getLast?_eq h)

theorem noNL_strJoin {sep : String} (hsep : noNL sep) :
    ∀ {l : List String}, (∀ p ∈ l, noNL p) → noNL (strJoin sep l)
  | [], _ => by intro h; simp [strJoin, String.data] at h
  | [x], hl => by simpa [strJoin] using hl x (by simp)
  | x :: y :: rest, hl => by
    have hx : noNL x := hl x (by simp)
    have hrest : noNL (strJoin sep (y :: rest)) :=
      noNL_strJoin hsep (fun p hp => hl p (List.mem_cons_of_mem _ hp))
    simpa [strJoin] using noNL_append (noNL_append hx hsep) hrest

theorem setDataLoop_isOk : ∀ d : PyVal, (setDataLoop d).isOk = spineOk d
  | .int _ => rfl
  | .str _ => rfl
  | .bool _ => rfl
  | .pylist [] => rfl
  | .pytuple [] => rfl
  | .pyarr [] => rfl
  | .pylist (x :: rest) => by
    have ih := setDataLoop_isOk x
    simp only [setDataLoop, spineOk]
    cases hx : setDataLoop x with
    | error e => rw [hx] at ih; simpa [Except.map, Except.isOk, Except.toBool, hx] using ih
    | ok r => rw [hx] at ih; simpa [Except.map, Except.isOk, Except.toBool, hx] using ih
  | .pytuple (x :: rest) => by
    have ih := setDataLoop_isOk x
    simp only [setDataLoop, spineOk]
    cases hx : setDataLoop x with
    | error e => rw [hx] at ih; simpa [Except.map, Except.isOk, Except.toBool, hx] using ih
    | ok r => rw [hx] at ih; simpa [Except.map, Except.isOk, Except.toBool, hx] using ih
  | .pyarr (x :: rest) => by
    have ih := setDataLoop_isOk x
    simp only [setDataLoop, spineOk]
    cases hx : setDataLoop x with
    | error e => rw [hx] at ih; simpa [Except.map, Except.isOk, Except.toBool, hx] using ih
    | ok r => rw [hx] at ih; simpa [Except.map, Except.isOk, Except.toBool, hx] using ih

theorem setDataLoop_err : ∀ d : PyVal, spineOk d = false → setDataLoop d = .error indexErrorMsg
  | .int _, h => by simp [spineOk] at h
  | .str _, h => by simp [spineOk] at h
  | .bool _, h => by simp [spineOk] at h
  | .pylist [], _ => rfl
  | .pytuple [], _ => rfl
  | .pyarr [], _ => rfl
  | .pylist (x :: rest), h => by
    have := setDataLoop_err x (by simpa [spineOk] using h)
    simp [setDataLoop, this, Except.map]
  | .pytuple (x :: rest), h => by
    have := setDataLoop_err x (by simpa [spineOk] using h)
    simp [setDataLoop, this, Except.map]
  | .pyarr (x :: rest), h => by
    have := setDataLoop_err x (by simpa [spineOk] using h)
    simp [setDataLoop, this, Except.map]

/-- C10: the unwrapping loop of `set_data` terminates (each iteration
moves to `data[0]`, which has strictly smaller wrapper depth), succeeds
exactly when every wrapper layer along the first-element path is
non-empty, and on an empty layer `set_data` fails with the `IndexError`
of `data[0]` and stores nothing. -/
theorem unwrap_loop_safety :
    (∀ d x : PyVal, head0 d = some x → wdepth x < wdepth d) ∧
    (∀ d : PyVal, (setDataLoop d).isOk = spineOk d) ∧
    (∀ (s : MFScalar) (d : PyVal), spineOk d = false → s.set_data d = .error indexErrorMsg) := by
  refine ⟨?A, setDataLoop_isOk, ?B⟩
  · intro d x h
    cases d with
    | pylist xs =>
      cases xs with
      | nil => simp [head0] at h
      | cons a l => simp [head0] at h; subst h; simp [wdepth]
    | pytuple xs =>
      cases xs with
      | nil => simp [head0] at h
      | cons a l => simp [head0] at h; subst h; simp [wdepth]
    | pyarr xs =>
      cases xs with
      | nil => simp [head0] at h
      | cons a l => simp [head0] at h; subst h; simp [wdepth]
    | int n => simp [head0] at h
    | str s => simp [head0] at h
    | bool b => simp [head0] at h
  · intro s d h
    rw [MFScalar.set_data, setDataLoop_err d h]

/-- C10 witness: a nested empty list makes `data[0]` fail, and each
unwrapping step reduces the depth. -/
theorem unwrap_loop_safety_witness :
    wdepth (.pylist []) < wdepth (.pylist [.pylist []]) ∧
    sInt.set_data (.pylist [.pylist []]) = .error indexErrorMsg := by
  exact ⟨unwrap_loop_safety.1 (.pylist [.pylist []]) (.pylist []) rfl,
    unwrap_loop_safety.2.2 sInt (.pylist [.pylist []]) rfl⟩

/-- C9: the PCGN constructor raises a `TypeError` naming the offending
value exactly when `ifill` is outside {0, 1}, before `add_package` runs
(the parent's package list is extended only on success); `ifill` 0 and 1
pass the check and register the package. -/
theorem pcgn_ifill_check :
    (∀ (parent : List String) (p : ModflowPcgn), p.ifill < 0 ∨ 1 < p.ifill →
      modflowPcgnInit parent p = .error (pcgnIfillMsg p.ifill) ∧
      pcgnIfillMsg p.ifill =
        "PCGN: ifill must be 0 or 1 - an ifill value of " ++ toString p.ifill ++ " was specified") ∧
    (∀ (parent : List String) (p : ModflowPcgn), p.ifill = 0 ∨ p.ifill = 1 →
      modflowPcgnInit parent p = .ok (p, parent ++ ["PCGN"])) := by
  constructor
  · intro parent p h
    exact ⟨by rw [modflowPcgnInit, if_pos h], rfl⟩
  · intro parent p h
    rw [modflowPcgnInit, if_neg]
    rcases h with h | h <;> rw [h] <;> omega

/-- C9 witness: `ifill = 2` raises the named `TypeError` and leaves the
parent package list untouched; `ifill = 0` and `ifill = 1` register the
package. -/
theorem pcgn_ifill_check_witness :
    modflowPcgnInit [] { ifill := 2 } = .error (pcgnIfillMsg 2) ∧
    modflowPcgnInit [] { ifill := 0 } = .ok ({ ifill := 0 }, ["PCGN"]) ∧
    modflowPcgnInit [] { ifill := 1 } = .ok ({ ifill := 1 }, ["PCGN"]) := by
  refine ⟨(pcgn_ifill_check.1 [] { ifill := 2 } (by right; decide)).1, ?A, ?B⟩
  · simpa using pcgn_ifill_check.2 [] { ifill := 0 } (by left; rfl)
  · simpa using pcgn_ifill_check.2 [] { ifill := 1 } (by right; rfl)

/-- C4: `add_one` on an integer-typed cell stores 1 when no value is
present and `n + 1` when `n` is stored; on any non-integer declared type
it raises the unsupported-operation error whose message names the field
and its declared type (the cell is returned unmodified inside the
error). -/
theorem add_one_spec :
    (∀ s : MFScalar, s.struct.datum_type = "int" ∨ s.struct.datum_type = "integer" →
      (s.data_storage.value = none →
        s.add_one = .ok { s with data_storage := ⟨some (.int 1)⟩ }) ∧
      (∀ n : Int, s.data_storage.value = some (.int n) →
        s.add_one = .ok { s with data_storage := ⟨some (.int (n + 1))⟩ })) ∧
    (∀ s : MFScalar, ¬(s.struct.datum_type = "int" ∨ s.struct.datum_type = "integer") →
      s.add_one = .error (addOneErrMsg s.data_name s.struct.datum_type) ∧
      addOneErrMsg s.data_name s.struct.datum_type =
        s.data_name ++ " of type " ++ s.struct.datum_type ++
          " does not support add one operation.") := by
  constructor
  · intro s h
    constructor
    · intro hv
      rw [MFScalar.add_one, if_pos h, hv]
    · intro n hv
      rw [MFScalar.add_one, if_pos h, hv]
      rfl
  · intro s h
    exact ⟨by rw [MFScalar.add_one, if_neg h], rfl⟩

/-- C4 witness: the fresh integer cell goes to 1, the cell holding 3 goes
to 4, and the string-typed cell raises the named error. -/
theorem add_one_spec_witness :
    sInt.add_one = .ok { sInt with data_storage := ⟨some (.int 1)⟩ } ∧
    sInt3.add_one = .ok { sInt3 with data_storage := ⟨some (.int 4)⟩ } ∧
    sStr.add_one = .error (addOneErrMsg "memory" "string") := by
  refine ⟨(add_one_spec.1 sInt (by right; rfl)).1 rfl, ?A, ?B⟩
  · simpa using (add_one_spec.1 sInt3 (by right; rfl)).2 3 rfl
  · simpa using (add_one_spec.2 sStr (by decide)).1

theorem setDataLoop_spec : ∀ (raw v : PyVal) (cs : List (List PyVal)),
    setDataLoop raw = .ok (v, cs) →
    isWrapper v = false ∧ firstScalar raw = some v ∧ trailComments raw = cs
  | .int n, v, cs, h => by
    obtain ⟨h1, h2⟩ : PyVal.int n = v ∧ ([] : List (List PyVal)) = cs := by
      simpa [setDataLoop] using h
    subst h1; subst h2
    exact ⟨rfl, rfl, rfl⟩
  | .str s, v, cs, h => by
    obtain ⟨h1, h2⟩ : PyVal.str s = v ∧ ([] : List (List PyVal)) = cs := by
      simpa [setDataLoop] using h
    subst h1; subst h2
    exact ⟨rfl, rfl, rfl⟩
  | .bool b, v, cs, h => by
    obtain ⟨h1, h2⟩ : PyVal.bool b = v ∧ ([] : List (List PyVal)) = cs := by
      simpa [setDataLoop] using h
    subst h1; subst h2
    exact ⟨rfl, rfl, rfl⟩
  | .pylist [], v, cs, h => by simp [setDataLoop] at h
  | .pytuple [], v, cs, h => by simp [setDataLoop] at h
  | .pyarr [], v, cs, h => by simp [setDataLoop] at h
  | .pylist (x :: rest), v, cs, h => by
    obtain ⟨r, hr, hy⟩ := exceptMap_ok (by simpa [setDataLoop] using h)
    obtain ⟨ha, hb, hc⟩ := setDataLoop_spec x r.1 r.2 (by rw [hr])
    obtain ⟨h1, h2⟩ := Prod.mk.injEq .. ▸ hy
    exact ⟨h1 ▸ ha, by simp [firstScalar, h1 ▸ hb], by simp [trailComments, h2, hc]⟩
  | .pytuple (x :: rest), v, cs, h => by
    obtain ⟨r, hr, hy⟩ := exceptMap_ok (by simpa [setDataLoop] using h)
    obtain ⟨ha, hb, hc⟩ := setDataLoop_spec x r.1 r.2 (by rw [hr])
    obtain ⟨h1, h2⟩ := Prod.mk.injEq .. ▸ hy
    exact ⟨h1 ▸ ha, by simp [firstScalar, h1 ▸ hb], by simp [trailComments, h2, hc]⟩
  | .pyarr (x :: rest), v, cs, h => by
    obtain ⟨r, hr, hy⟩ := exceptMap_ok (by simpa [setDataLoop] using h)
    obtain ⟨ha, hb, hc⟩ := setDataLoop_spec x r.1 r.2 (by rw [hr])
    obtain ⟨h1, h2⟩ := Prod.mk.injEq .. ▸ hy
    exact ⟨h1 ▸ ha, by simp [firstScalar, h1 ▸ hb], by simp [trailComments, h2, hc]⟩

/-- C2: the `set_data` loop unwraps the first element of each wrapper
layer until a non-sequence scalar remains; each unwrapped layer that is a
list/tuple of length greater than 1 contributes its elements from index 1
onward as a trailing comment; the remaining scalar is converted to the
declared type and stored, with the collected comments appended; in
particular `set_data([[5, "note"]])` on an integer cell stores 5 and
records the comment `"note"`. -/
theorem set_data_unwraps :
    (∀ (raw v : PyVal) (cs : List (List PyVal)), setDataLoop raw = .ok (v, cs) →
      isWrapper v = false ∧ firstScalar raw = some v ∧ trailComments raw = cs) ∧
    (∀ (s : MFScalar) (raw : PyVal) (s' : MFScalar), s.set_data raw = .ok s' →
      ∃ v cs w, setDataLoop raw = .ok (v, cs) ∧ convert_data v s.data_type = .ok w ∧
        s'.data_storage.value = some w ∧ s'.comments = s.comments ++ cs) ∧
    (∀ s s' : MFScalar, s.data_type = "integer" →
      s.set_data (.pylist [.pylist [.int 5, .str "note"]]) = .ok s' →
      s'.data_storage.value = some (.int 5) ∧ s'.comments = s.comments ++ [[.str "note"]]) := by
  refine ⟨setDataLoop_spec, ?A, ?B⟩
  · intro s raw s' h
    rw [MFScalar.set_data] at h
    cases hl : setDataLoop raw with
    | error e => rw [hl] at h; exact absurd h (by simp)
    | ok r =>
      obtain ⟨v, cs⟩ := r
      rw [hl] at h
      simp only at h
      cases hc : convert_data v s.data_type with
      | error e => rw [hc] at h; exact absurd h (by simp)
      | ok w =>
        rw [hc] at h
        obtain rfl : _ = s' := by simpa using h
        exact ⟨v, cs, w, rfl, hc, rfl, rfl⟩
  · intro s s' hdt h
    rw [MFScalar.set_data] at h
    rw [show setDataLoop (.pylist [.pylist [.int 5, .str "note"]]) =
      .ok (.int 5, [[.str "note"]]) from rfl, hdt] at h
    obtain rfl : _ = s' := by simpa [convert_data] using h
    exact ⟨rfl, rfl⟩

/-- C2 witness: the fresh integer cell accepts `[[5, "note"]]`, storing 5
and recording `"note"`. -/
theorem set_data_unwraps_witness :
    sInt.data_type = "integer" ∧
    sInt.set_data (.pylist [.pylist [.int 5, .str "note"]]) = .ok c2res ∧
    c2res.data_storage.value = some (.int 5) ∧
    c2res.comments = sInt.comments ++ [[.str "note"]] := by
  refine ⟨rfl, rfl, ?A⟩
  exact set_data_unwraps.2.2 sInt c2res rfl rfl

theorem loadStore_ok_storage {s : MFScalar} {arr : List String} {cur : String} {idx : Nat}
    {s1 : MFScalar} {i : Nat} (h : s.loadStore arr cur idx = .ok (s1, i)) :
    ∃ w, s1.data_storage.value = some w := by
  rw [MFScalar.loadStore] at h
  simp only [] at h
  repeat' split at h
  all_goals
    first
    | exact Except.noConfusion h
    | (obtain ⟨rfl, -⟩ : _ = s1 ∧ _ = i := by simpa using h
       exact ⟨_, rfl⟩)

theorem loadFinish_fst_storage (arr : List String) (p : MFScalar × Nat) :
    (loadFinish arr p).1.data_storage = p.1.data_storage := by
  rw [loadFinish]
  split <;> rfl

/-- C3: `has_data()` is false on a freshly constructed scalar cell (and
construction without data succeeds returning exactly that fresh cell),
and true immediately after any successful `set_data` or `load`. -/
theorem has_data_lifecycle :
    (∀ (str : MFDataStructure) (indent dname : String),
      (MFScalar.mkNew str indent dname).has_data = false ∧
      MFScalar.init str indent dname none = .ok (MFScalar.mkNew str indent dname)) ∧
    (∀ (s : MFScalar) (d : PyVal) (s' : MFScalar), s.set_data d = .ok s' →
      s'.has_data = true) ∧
    (∀ (s : MFScalar) (line : String) (s' : MFScalar) (b : Bool) (r : Option String),
      s.load line = .ok (s', b, r) → s'.has_data = true) := by
  refine ⟨fun str indent dname => ⟨rfl, rfl⟩, ?A, ?B⟩
  · intro s d s' h
    rw [MFScalar.set_data] at h
    cases hl : setDataLoop d with
    | error e => rw [hl] at h; exact absurd h (by simp)
    | ok r =>
      obtain ⟨v, cs⟩ := r
      rw [hl] at h
      simp only at h
      cases hc : convert_data v s.data_type with
      | error e => rw [hc] at h; exact absurd h (by simp)
      | ok w =>
        rw [hc] at h
        obtain rfl : _ = s' := by simpa using h
        rfl
  · intro s line s' b r h
    rw [MFScalar.load] at h
    split at h
    · exact absurd h (by simp)
    · obtain ⟨⟨s1, i⟩, hA, hy⟩ := exceptMap_ok h
      obtain ⟨w, hw⟩ := loadStore_ok_storage hA
      have hs' : s' = (loadFinish (split_data_line (read_pre_data_comments line)) (s1, i)).1 :=
        congrArg Prod.fst hy
      simp [MFScalar.has_data, hs', loadFinish_fst_storage, hw]

/-- C3 witness: the fresh integer cell has no data; after
`set_data(7)` it has data; after loading the line `"NLAY 3"` it has
data. -/
theorem has_data_lifecycle_witness :
    sInt.has_data = false ∧
    MFScalar.init intStruct "  " "nlay" none = .ok sInt ∧
    sInt.set_data (.int 7) = .ok sInt7 ∧
    sInt7.has_data = true ∧
    sInt.load "NLAY 3" = .ok (sInt3, false, none) ∧
    sInt3.has_data = true := by
  refine ⟨(has_data_lifecycle.1 intStruct "  " "nlay").1,
    (has_data_lifecycle.1 intStruct "  " "nlay").2, rfl, ?A, rfl, ?B⟩
  · exact has_data_lifecycle.2.1 sInt (.int 7) sInt7 rfl
  · exact has_data_lifecycle.2.2 sInt "NLAY 3" sInt3 false none rfl

/-- C5: loading a keyword-only field (transient or not) stores boolean
true and succeeds regardless of tokens after the keyword; loading a
non-record, non-keyword scalar whose tokenized line has no token beyond
the keyword index raises the parse error naming the field, the expected
label and the line; otherwise the token after the keyword is converted
and stored. -/
theorem load_token_requirements :
    (∀ (s : MFScalar) (line : String) (idx : Nat),
      s.struct.stype ≠ "record" →
      s.struct.datatype = .scalar_keyword ∨ s.struct.datatype = .scalar_keyword_transient →
      load_keyword s.struct.name (split_data_line line) = .ok idx →
      (s.load line).map (fun p => p.1.data_storage.value) = .ok (some (.bool true))) ∧
    (∀ (s : MFScalar) (line : String) (idx : Nat),
      s.struct.stype ≠ "record" →
      ¬(s.struct.datatype = .scalar_keyword ∨ s.struct.datatype = .scalar_keyword_transient) →
      load_keyword s.struct.name (split_data_line line) = .ok idx →
      (split_data_line line).length < 1 + idx →
      s.load line = .error (missing_data_msg s.data_name
        (strLower (s.struct.data_item_structures.headD default).name) line)) ∧
    (∀ (s : MFScalar) (line : String) (idx : Nat) (w : PyVal),
      s.struct.stype ≠ "record" →
      ¬(s.struct.datatype = .scalar_keyword ∨ s.struct.datatype = .scalar_keyword_transient) →
      load_keyword s.struct.name (split_data_line line) = .ok idx →
      ¬(split_data_line line).length < 1 + idx →
      convert_data (.str ((split_data_line line).getD idx "")) s.data_type = .ok w →
      (s.load line).map (fun p => p.1.data_storage.value) = .ok (some w)) := by
  refine ⟨?A, ?B, ?C⟩
  · intro s line idx hrec hkw hk
    simp only [MFScalar.load, read_pre_data_comments]
    rw [hk]
    simp only [MFScalar.loadStore, if_neg hrec, if_pos hkw]
    simp [Except.map, loadFinish_fst_storage]
  · intro s line idx hrec hkw hk hshort
    simp only [MFScalar.load, read_pre_data_comments]
    rw [hk]
    simp only [MFScalar.loadStore, if_neg hrec, if_neg hkw, if_pos hshort]
    simp [Except.map]
  · intro s line idx w hrec hkw hk hshort hc
    simp only [MFScalar.load, read_pre_data_comments]
    rw [hk]
    simp only [MFScalar.loadStore, if_neg hrec, if_neg hkw, if_neg hshort]
    rw [hc]
    simp [Except.map, loadFinish_fst_storage]

/-- C5 witness: loading `"PRINT_INPUT"` into the keyword cell stores
true with no trailing token; loading `"NLAY"` into the integer cell
raises the missing-data error; loading `"NLAY 3"` stores 3. -/
theorem load_token_requirements_witness :
    (sKw.load "PRINT_INPUT").map (fun p => p.1.data_storage.value) = .ok (some (.bool true)) ∧
    sInt.load "NLAY" = .error (missing_data_msg "nlay" "nlay" "NLAY") ∧
    (sInt.load "NLAY 3").map (fun p => p.1.data_storage.value) = .ok (some (.int 3)) := by
  refine ⟨?A, ?B, ?C⟩
  · exact load_token_requirements.1 sKw "PRINT_INPUT" 1 (by decide) (by left; rfl) rfl
  · exact load_token_requirements.2.1 sInt "NLAY" 1 (by decide) (by decide) rfl (by decide)
  · exact load_token_requirements.2.2 sInt "NLAY 3" 1 (.int 3) (by decide) (by decide) rfl
      (by decide) rfl

theorem assocFind_assocSet_self (l : List (Nat × DataStorage)) (k : Nat) (st : DataStorage) :
    assocFind (assocSet l k st) k = some st := by
  induction l with
  | nil => simp [assocSet, assocFind]
  | cons p rest ih =>
    obtain ⟨k0, st0⟩ := p
    by_cases h : k0 = k
    · subst h; simp [assocSet, assocFind]
    · simp [assocSet, assocFind, h, ih]

theorem assocFind_assocSet_ne (l : List (Nat × DataStorage)) (k k' : Nat) (st : DataStorage)
    (hne : k' ≠ k) : assocFind (assocSet l k st) k' = assocFind l k' := by
  induction l with
  | nil => simp [assocSet, assocFind, Ne.symm hne]
  | cons p rest ih =>
    obtain ⟨k0, st0⟩ := p
    by_cases h : k0 = k
    · subst h
      simp [assocSet, assocFind, Ne.symm hne]
    · simp [assocSet, assocFind, h, ih]

/-- C6: operations narrowed to one key never change another key's cell
(`set_data` and `load` rewrite only the active key's storage), and
re-registering a key with `add_transient_key` binds it to a fresh empty
cell while leaving every other key's cell untouched. -/
theorem transient_key_isolation :
    (∀ (t : MFScalarTransient) (data : PyVal) (key : Nat) (t' : MFScalarTransient) (k' : Nat),
      t.set_data_plain data (some key) = .ok t' → k' ≠ key →
      assocFind t'.storages k' = assocFind t.storages k') ∧
    (∀ (t : MFScalarTransient) (line : String) (key : Nat) (t' : MFScalarTransient)
      (b : Bool) (r : Option String) (k' : Nat),
      t.load line key = .ok (t', b, r) → k' ≠ key →
      assocFind t'.storages k' = assocFind t.storages k') ∧
    (∀ (t : MFScalarTransient) (key : Nat),
      assocFind (t.add_transient_key key).storages key = some emptyStorage ∧
      ∀ k' : Nat, k' ≠ key →
        assocFind (t.add_transient_key key).storages k' = assocFind t.storages k') := by
  refine ⟨?A, ?B, ?C⟩
  · intro t data key t' k' h hne
    rw [MFScalarTransient.set_data_plain] at h
    simp only [prepKey] at h
    cases hf : assocFind t.storages key with
    | none => rw [hf] at h; exact Except.noConfusion h
    | some st =>
      rw [hf] at h
      obtain ⟨s', hs', hy⟩ := exceptMap_ok h
      obtain rfl : t' = t.absorb key s' := hy
      exact assocFind_assocSet_ne t.storages key k' s'.data_storage hne
  · intro t line key t' b r k' h hne
    rw [MFScalarTransient.load] at h
    cases hf : assocFind t.storages key with
    | none => rw [hf] at h; exact Except.noConfusion h
    | some st =>
      rw [hf] at h
      obtain ⟨p, hp, hy⟩ := exceptMap_ok h
      obtain rfl : t' = (t.absorb key p.1) := congrArg (fun q => q.1) hy
      exact assocFind_assocSet_ne t.storages key k' p.1.data_storage hne
  · intro t key
    exact ⟨assocFind_assocSet_self t.storages key emptyStorage,
      fun k' hne => assocFind_assocSet_ne t.storages key k' emptyStorage hne⟩

/-- C6 witness: setting data at key 0 of the three-key fixture leaves key
1's cell unchanged; loading at key 0 leaves key 2's cell unchanged;
re-registering key 1 yields a fresh empty cell there and leaves key 2
alone. -/
theorem transient_key_isolation_witness :
    tKw.set_data_plain (.bool true) (some 0) = .ok tKwSet0 ∧
    assocFind tKwSet0.storages 1 = assocFind tKw.storages 1 ∧
    tKw.load "PRINT_INPUT" 0 = .ok (tKwSet0, false, none) ∧
    assocFind tKwSet0.storages 2 = assocFind tKw.storages 2 ∧
    assocFind (tKw.add_transient_key 1).storages 1 = some emptyStorage ∧
    assocFind (tKw.add_transient_key 1).storages 2 = assocFind tKw.storages 2 := by
  refine ⟨rfl, ?A, rfl, ?B, (transient_key_isolation.2.2 tKw 1).1,
    (transient_key_isolation.2.2 tKw 1).2 2 (by decide)⟩
  · exact transient_key_isolation.1 tKw (.bool true) 0 tKwSet0 1 rfl (by decide)
  · exact transient_key_isolation.2.1 tKw "PRINT_INPUT" 0 tKwSet0 false none 2 rfl (by decide)

theorem strJoin_blank_claim : ∀ es : List String, strJoin "\n\n" es = claimJoin es
  | [] => rfl
  | [e] => by simp [strJoin, claimJoin]
  | a :: b :: rest => by
    have h2 : 2 ≤ (a :: b :: rest).length := by simp
    simp [claimJoin, h2]

theorem gfeLoop_collect (str : MFDataStructure) (indent dtype : String)
    (storages : List (Nat × DataStorage)) :
    ∀ (keys : List Nat) (ck : Option Nat) (es : List String) (ck' : Option Nat),
      gfeLoop str indent dtype storages keys ck = .ok (es, ck') →
      collectSpec str indent dtype storages keys = .ok es := by
  intro keys
  induction keys with
  | nil =>
    intro ck es ck' h
    obtain ⟨rfl, rfl⟩ : ([] : List String) = es ∧ ck = ck' := by
      simpa [gfeLoop] using h
    rfl
  | cons k ks ih =>
    intro ck es ck' h
    simp only [gfeLoop] at h
    by_cases hk : keyHasData storages k
    · rw [if_pos hk] at h
      cases hg : gfe_core str indent dtype (assocFind storages k) false false with
      | error e => rw [hg] at h; exact Except.noConfusion h
      | ok entry =>
        rw [hg] at h
        obtain ⟨⟨es0, ck0⟩, hrec, hy⟩ := exceptMap_ok h
        obtain ⟨rfl, rfl⟩ : es = entry :: es0 ∧ ck' = ck0 := by simpa using hy
        simp only [collectSpec]
        rw [if_pos hk, hg, ih _ _ _ hrec]
        rfl
    · rw [if_neg hk] at h
      simp only [collectSpec]
      rw [if_neg hk]
      exact ih (some k) es ck' h

/-- C1: the transient `get_file_entry` with no key renders, in key
registration order, the entry of every key whose cell has data, and the
result is the entries joined by a blank-line separator when there are two
or more, the single entry bare when there is exactly one, and the empty
string when there are none (under CPython 2 semantics the source's
`file_entry > 1` list/int comparison is always true, and the blank-line
join of one entry or none yields exactly that). -/
theorem transient_gfe_aggregation (t : MFScalarTransient) (es : List String) (ck : Option Nat)
    (h : gfeLoop t.struct t.indent_string t.data_type t.storages (keysOf t.storages)
      t.current_key = .ok (es, ck)) :
    t.get_file_entry none = .ok (claimJoin es, { t with current_key := ck }) ∧
    collectSpec t.struct t.indent_string t.data_type t.storages (keysOf t.storages) = .ok es := by
  constructor
  · simp only [MFScalarTransient.get_file_entry]
    rw [h]
    simp [py2_list_gt_int, strJoin_blank_claim]
  · exact gfeLoop_collect _ _ _ _ _ _ _ _ h

/-- C1 witness: with data at keys 0 and 2 of three registered keys, the
no-key entry is the two rendered keyword entries joined by a blank line
in registration order. -/
theorem transient_gfe_aggregation_witness :
    tKw.get_file_entry none =
      .ok (claimJoin ["  PRINT_INPUT\n", "  PRINT_INPUT\n"],
        { tKw with current_key := some 2 }) ∧
    collectSpec tKw.struct tKw.indent_string tKw.data_type tKw.storages (keysOf tKw.storages) =
      .ok ["  PRINT_INPUT\n", "  PRINT_INPUT\n"] :=
  transient_gfe_aggregation tKw ["  PRINT_INPUT\n", "  PRINT_INPUT\n"] (some 2) rfl

/-- C7: on an integer-typed cell storing `n`, `get_file_entry` with
`one_based` renders `n + 1` (with or without the leading field name), and
the cell's stored data after the call is still `n`: the method never
mutates the instance. -/
theorem one_based_display (s : MFScalar) (n : Int)
    (h1 : s.struct.stype = "integer" ∨ s.struct.stype = "int")
    (h2 : s.data_storage.value = some (.int n)) :
    ∀ vo : Bool,
      s.get_file_entry vo true = .ok
        ((if vo then
            s.indent_string ++ to_string (.int (n + 1)) s.data_type
              (s.struct.data_item_structures.headD default).ucase
          else
            s.indent_string ++ strUpper s.struct.name ++ s.indent_string ++
              to_string (.int (n + 1)) s.data_type
                (s.struct.data_item_structures.headD default).ucase ++ "\n"), s) ∧
      s.data_storage.value = some (.int n) := by
  intro vo
  refine ⟨?G, h2⟩
  rcases h1 with h1 | h1 <;>
    cases vo <;>
      simp [MFScalar.get_file_entry, gfe_core, h1, h2, py_add_one, Except.map]

/-- C7 witness: the integer cell storing 3 renders 4 with `one_based`,
and still stores 3 afterwards. -/
theorem one_based_display_witness :
    sInt3.get_file_entry false true =
      .ok ("  " ++ strUpper "nlay" ++ "  " ++ to_string (.int 4) "integer" false ++ "\n",
        sInt3) ∧
    sInt3.get_file_entry true true =
      .ok ("  " ++ to_string (.int 4) "integer" false, sInt3) ∧
    sInt3.data_storage.value = some (.int 3) := by
  have hA := one_based_display sInt3 3 (by left; rfl) rfl false
  have hB := one_based_display sInt3 3 (by left; rfl) rfl true
  exact ⟨by simpa using hA.1, by simpa using hB.1, hA.2⟩

theorem recordParts_noNL {v : PyVal} {dtype : String} :
    ∀ {items : List DataItemStructure} {parts : List String},
      recordParts v dtype items = .ok parts →
      (∀ di ∈ items, noNL (strUpper di.name)) →
      (∀ b, noNL (to_string v dtype b)) →
      ∀ p ∈ parts, noNL p := by
  intro items
  induction items with
  | nil =>
    intro parts h _ _ p hp
    obtain rfl : ([] : List String) = parts := by simpa [recordParts] using h
    simp at hp
  | cons di rest ih =>
    intro parts h hnames hts p hp
    simp only [recordParts] at h
    split at h
    · obtain ⟨ps, hps, hy⟩ := exceptMap_ok h
      subst hy
      rcases List.mem_cons.mp hp with rfl | hp'
      · exact hnames di (by simp)
      · exact ih hps (fun d hd => hnames d (List.mem_cons_of_mem _ hd)) hts p hp'
    · split at h
      case h_1 => exact Except.noConfusion h
      case h_2 n heq =>
        split at h
        · obtain ⟨ps, hps, hy⟩ := exceptMap_ok h
          subst hy
          rcases List.mem_cons.mp hp with rfl | hp'
          · exact hts di.ucase
          · exact ih hps (fun d hd => hnames d (List.mem_cons_of_mem _ hd)) hts p hp'
        · exact ih h (fun d hd => hnames d (List.mem_cons_of_mem _ hd)) hts p hp

/-- C8 counterexample: the `values_only` rendering of the integer cell
storing 3 is the non-empty entry `"  3"`, which does not end with a
newline — refuting the claim that every non-empty entry, including the
`values_only` rendering, terminates with a newline. -/
theorem gfe_values_only_no_newline_cex :
    sInt3.get_file_entry true false = .ok ("  3", sInt3) ∧
    "  3" ≠ "" ∧ ¬ endsWithNL "  3" := by
  exact ⟨rfl, by decide, by decide⟩

/-- C8 (amended): every non-empty entry produced by `get_file_entry`
terminates with a single newline character, except the `values_only`
rendering of a non-record, non-keyword field, which has no trailing
newline (stated for cells whose indent string, field names and rendered
values contain no newline). -/
theorem gfe_single_newline (s : MFScalar) (vo ob : Bool) (out : String) (s' : MFScalar)
    (hin : noNL s.indent_string)
    (hname : noNL (strUpper s.struct.name))
    (hitems : ∀ di ∈ s.struct.data_item_structures, noNL (strUpper di.name))
    (hval : ∀ b : Bool, noNL (to_string (s.data_storage.value.getD default) s.data_type b))
    (hob : ∀ (b : Bool) (w : PyVal),
      py_add_one (s.data_storage.value.getD default) = .ok w →
      noNL (to_string w s.data_type b))
    (h : s.get_file_entry vo ob = .ok (out, s'))
    (hne : out ≠ "") :
    if vo = true ∧ s.struct.stype ≠ "keyword" ∧ s.struct.stype ≠ "record" then
      ¬ endsWithNL out
    else singleNL out := by
  rw [MFScalar.get_file_entry] at h
  obtain ⟨o, ho, hy⟩ := exceptMap_ok h
  obtain ⟨rfl, -⟩ : out = o ∧ s' = s := by simpa using hy
  simp only [gfe_core] at ho
  cases hv : s.data_storage.value with
  | none =>
    rw [hv] at ho
    obtain rfl : "" = out := Except.ok.inj ho
    exact absurd rfl hne
  | some v =>
    have hval' : ∀ b, noNL (to_string v s.data_type b) := by simpa [hv] using hval
    have hob' : ∀ (b : Bool) (w : PyVal), py_add_one v = .ok w →
        noNL (to_string w s.data_type b) := by simpa [hv] using hob
    rw [hv] at ho
    simp only [] at ho
    by_cases hkw : s.struct.stype = "keyword"
    · rw [if_pos hkw] at ho
      obtain rfl : _ = out := Except.ok.inj ho
      rw [if_neg (by simp [hkw])]
      exact singleNL_append_nl (noNL_append hin hname)
    · rw [if_neg hkw] at ho
      by_cases hrec : s.struct.stype = "record"
      · rw [if_pos hrec] at ho
        cases hp : recordParts v s.data_type s.struct.data_item_structures with
        | error e => rw [hp] at ho; exact Except.noConfusion ho
        | ok parts =>
          rw [hp] at ho
          obtain rfl : _ = out := Except.ok.inj ho
          rw [if_neg (by simp [hrec])]
          exact singleNL_append_nl
            (noNL_append hin (noNL_strJoin hin (recordParts_noNL hp hitems hval')))
      · rw [if_neg hrec] at ho
        try simp only [] at ho
        split at ho
        next e heq => exact Except.noConfusion ho
        next d heq =>
          have hd : ∀ b : Bool, noNL (to_string d s.data_type b) := by
            cases ob with
            | false =>
              obtain rfl : v = d := Except.ok.inj heq
              exact hval'
            | true =>
              simp only [if_pos rfl] at heq
              by_cases hint : s.struct.stype = "integer" ∨ s.struct.stype = "int"
              · rw [if_pos hint] at heq
                exact fun b => hob' b d heq
              · rw [if_neg hint] at heq
                exact absurd heq (by simp)
          cases vo with
          | true =>
            rw [if_pos rfl] at ho
            obtain rfl : _ = out := Except.ok.inj ho
            rw [if_pos ⟨rfl, hkw, hrec⟩]
            exact not_endsWithNL_of_noNL
              (noNL_append hin (hd (s.struct.data_item_structures.headD default).ucase))
          | false =>
            rw [if_neg (by simp)] at ho
            obtain rfl : _ = out := Except.ok.inj ho
            rw [if_neg (by simp)]
            exact singleNL_append_nl
              (noNL_append (noNL_append (noNL_append hin hname) hin)
                (hd (s.struct.data_item_structures.headD default).ucase))

/-- C8 witness for the amended claim: the keyword-and-value rendering of
the integer cell storing 3 ends with a single newline, and its
`values_only` rendering has no trailing newline. -/
theorem gfe_single_newline_witness :
    singleNL "  NLAY  3\n" ∧ ¬ endsWithNL "  3" := by
  have hob3 : ∀ (b : Bool) (w : PyVal),
      py_add_one (sInt3.data_storage.value.getD default) = .ok w →
      noNL (to_string w sInt3.data_type b) := by
    intro b w hw
    have h4 : (Except.ok (PyVal.int 4) : Except String PyVal) = .ok w := hw
    obtain rfl : PyVal.int 4 = w := by simpa using h4
    revert b
    decide
  have hA := gfe_single_newline sInt3 false false "  NLAY  3\n" sInt3 (by decide) (by decide)
    (by decide) (by decide) hob3 rfl (by decide)
  have hB := gfe_single_newline sInt3 true false "  3" sInt3 (by decide) (by decide)
    (by decide) (by decide) hob3 rfl (by decide)
  exact ⟨by simpa using hA, by simpa using hB⟩

end Flopy
